import Mathlib

/-!
Shallow embedding of razzie/chessimage: the tile/coordinate model
(src/unnamed/part_000) and the rendering pipeline (src/renderer.go).
Go machine arithmetic is modelled explicitly: `goDiv`/`goMod` are Go's
truncated integer division and remainder, `wrapInt8` is the `int8`
conversion, and the `float64` piece ratio is modelled as an exact
rational with Go's truncating float-to-int conversion.
-/

namespace Chessimage

/-- Go integer division truncates toward zero; Lean `/` on `Int` is
Euclidean.  For a positive divisor `b` this is Go's `a / b`. -/
def goDiv (a b : Int) : Int := if a < 0 then -((-a) / b) else a / b

/-- Go integer remainder pairs with `goDiv` (sign of the dividend).
For a positive divisor `b` this is Go's `a % b`. -/
def goMod (a b : Int) : Int := if a < 0 then -((-a) % b) else a % b

/-- Conversion of a Go `int` value to `int8` (two's-complement wrap). -/
def wrapInt8 (n : Int) : Int := (n + 128) % 256 - 128

/-- `type Tile int8` — a board square index, or the sentinel `NoTile`. -/
abbrev Tile := Int

/-- `func (s Tile) rank() int { return int(int(s) / 8) }` -/
def Tile.rank (s : Tile) : Int := goDiv s 8

/-- `func (s Tile) rankInverted() int { return 7 - s.rank() }` -/
def Tile.rankInverted (s : Tile) : Int := 7 - Tile.rank s

/-- `func (s Tile) file() int { return int(s) % 8 }` -/
def Tile.file (s : Tile) : Int := goMod s 8

/-- `func (s Tile) fileInverted() int { return 7 - s.file() }` -/
def Tile.fileInverted (s : Tile) : Int := 7 - Tile.file s

/-- `func tileFromRankFile(rank int, file int) Tile { return Tile(file*8 + rank) }`
The conversion to `Tile` is an `int8` conversion, hence the wrap. -/
def tileFromRankFile (rk fl : Int) : Tile := wrapInt8 (fl * 8 + rk)

/-- `NoTile Tile = iota - 1` -/
def NoTile : Tile := -1

def A8 : Tile := 0
def B8 : Tile := 1
def C8 : Tile := 2
def D8 : Tile := 3
def E8 : Tile := 4
def F8 : Tile := 5
def G8 : Tile := 6
def H8 : Tile := 7
def A7 : Tile := 8
def B7 : Tile := 9
def C7 : Tile := 10
def D7 : Tile := 11
def E7 : Tile := 12
def F7 : Tile := 13
def G7 : Tile := 14
def H7 : Tile := 15
def A6 : Tile := 16
def B6 : Tile := 17
def C6 : Tile := 18
def D6 : Tile := 19
def E6 : Tile := 20
def F6 : Tile := 21
def G6 : Tile := 22
def H6 : Tile := 23
def A5 : Tile := 24
def B5 : Tile := 25
def C5 : Tile := 26
def D5 : Tile := 27
def E5 : Tile := 28
def F5 : Tile := 29
def G5 : Tile := 30
def H5 : Tile := 31
def A4 : Tile := 32
def B4 : Tile := 33
def C4 : Tile := 34
def D4 : Tile := 35
def E4 : Tile := 36
def F4 : Tile := 37
def G4 : Tile := 38
def H4 : Tile := 39
def A3 : Tile := 40
def B3 : Tile := 41
def C3 : Tile := 42
def D3 : Tile := 43
def E3 : Tile := 44
def F3 : Tile := 45
def G3 : Tile := 46
def H3 : Tile := 47
def A2 : Tile := 48
def B2 : Tile := 49
def C2 : Tile := 50
def D2 : Tile := 51
def E2 : Tile := 52
def F2 : Tile := 53
def G2 : Tile := 54
def H2 : Tile := 55
def A1 : Tile := 56
def B1 : Tile := 57
def C1 : Tile := 58
def D1 : Tile := 59
def E1 : Tile := 60
def F1 : Tile := 61
def G1 : Tile := 62
def H1 : Tile := 63

/-- `var tileMap = map[string]Tile{...}` — the 64 algebraic names, in
the source's listing order. -/
def tileMap : List (String × Tile) :=
  [("a1", A1), ("a2", A2), ("a3", A3), ("a4", A4), ("a5", A5), ("a6", A6), ("a7", A7), ("a8", A8),
   ("b1", B1), ("b2", B2), ("b3", B3), ("b4", B4), ("b5", B5), ("b6", B6), ("b7", B7), ("b8", B8),
   ("c1", C1), ("c2", C2), ("c3", C3), ("c4", C4), ("c5", C5), ("c6", C6), ("c7", C7), ("c8", C8),
   ("d1", D1), ("d2", D2), ("d3", D3), ("d4", D4), ("d5", D5), ("d6", D6), ("d7", D7), ("d8", D8),
   ("e1", E1), ("e2", E2), ("e3", E3), ("e4", E4), ("e5", E5), ("e6", E6), ("e7", E7), ("e8", E8),
   ("f1", F1), ("f2", F2), ("f3", F3), ("f4", F4), ("f5", F5), ("f6", F6), ("f7", F7), ("f8", F8),
   ("g1", G1), ("g2", G2), ("g3", G3), ("g4", G4), ("g5", G5), ("g6", G6), ("g7", G7), ("g8", G8),
   ("h1", H1), ("h2", H2), ("h3", H3), ("h4", H4), ("h5", H5), ("h6", H6), ("h7", H7), ("h8", H8)]

/-- `func TileFromAN(an string) (Tile, error)` — map lookup, with the
`fmt.Errorf("tile %v not found", an)` error on a missing key. -/
def TileFromAN (an : String) : Except String Tile :=
  match tileMap.lookup an with
  | some tile => .ok tile
  | none => .error ("tile " ++ an ++ " not found")

/-- `type position struct { tile Tile; pieceSymbol string }` -/
structure position where
  tile : Tile
  pieceSymbol : String
deriving DecidableEq

/-- `type board []position` -/
abbrev board := List position

/-- `type LastMove struct { From, To Tile }` -/
structure LastMove where
  From : Tile
  To : Tile
deriving DecidableEq

/-- An abstract decoded raster image (the PNG bytes are outside the model;
an image is identified by an opaque id supplied by the file-system oracle). -/
structure Image where
  id : Nat
deriving DecidableEq

/-- An `fs.FS` together with `png.Decode`: resolves a path to a decoded
image or an open/decode error. -/
abbrev FileSys := String → Except String Image

/-- The scaling algorithms of golang.org/x/image/draw (`draw.Scaler`). -/
inductive Scaler where
  | nearestNeighbor
  | approxBiLinear
  | biLinear
  | catmullRom
deriving DecidableEq

/-- Porter-Duff compositing operators of golang.org/x/image/draw. -/
inductive BlendOp where
  | over
  | src
deriving DecidableEq

/-- The result of `resizeImage`: the source sprite scaled onto a
`pieceSize × pieceSize` RGBA canvas, recording which scaler and blend
operator performed the scale. -/
structure ResizedImage where
  srcImage : Image
  width : Int
  height : Int
  scaler : Scaler
  blend : BlendOp
deriving DecidableEq

/-- RGB color as set by `gg.Context.SetRGB255`. -/
abbrev Color := Int × Int × Int

/-- A primitive drawing operation performed on the `gg` canvas, in oder. -/
inductive DrawOp where
  | fillRect (x y w h : Int) (color : Color)
  | drawImage (img : ResizedImage) (x y : Int)
  | drawString (s : String) (x y : Int) (color : Color)
deriving DecidableEq

/-- `type drawSize struct { gridSize int; pieceSize, pieceOffset int }` -/
structure drawSize where
  gridSize : Int
  pieceSize : Int
  pieceOffset : Int
deriving DecidableEq

/-- `type Options struct {...}` — rendering options, with Go zero values as
the absent cases.  `PieceRatio` is `float64` in the source; it is modelled
as an exact rational. -/
structure Options where
  FileSystem : Option FileSys
  AssetPath : String
  Resizer : Option Scaler
  BoardSize : Int
  PieceRatio : ℚ
  Inverted : Bool

/-- The Go zero value of `Options`, i.e. `chessimage.Options{}`. -/
def defaultOptions : Options :=
  { FileSystem := none, AssetPath := "", Resizer := none,
    BoardSize := 0, PieceRatio := 0, Inverted := false }

/-- `type Renderer struct` — the fields that persist across renders
(`context` and `drawSize` are re-created inside each `Render` call). -/
structure Renderer where
  board : board
  checkTile : Tile
  lastMove : Option LastMove
deriving DecidableEq

/-- The image a render returns: a square canvas of side `size` holding the
sequence of draw operations that composited it, in drawing order. -/
structure RenderResult where
  size : Int
  ops : List DrawOp
deriving DecidableEq

/-- `defaultBoardSize = 512` -/
def defaultBoardSize : Int := 512

/-- `defaultPieceRatio = 0.9` -/
def defaultPieceRatio : ℚ := mkRat 9 10

/-- `fileSymbols = "abcdefgh"` -/
def fileSymbols : String := "abcdefgh"

/-- `fileSymbolsReverse = "hgfedcba"` -/
def fileSymbolsReverse : String := "hgfedcba"

/-- `rankSymbols = "12345678"` -/
def rankSymbols : String := "12345678"

/-- `rankSymbolsReverse = "87654321"` -/
def rankSymbolsReverse : String := "87654321"

def colorLight : Color := (240, 217, 181)

def colorDark : Color := (181, 136, 99)

def colorHighlightLight : Color := (247, 193, 99)

def colorHighlightDark : Color := (215, 149, 54)

def colorCheck : Color := (255, 0, 0)

/-- `var pieceNames = map[string]string{...}` -/
def pieceNames : List (String × String) :=
  [("b", "bd.png"), ("B", "bl.png"), ("k", "kd.png"), ("K", "kl.png"),
   ("n", "nd.png"), ("N", "nl.png"), ("p", "pd.png"), ("P", "pl.png"),
   ("q", "qd.png"), ("Q", "ql.png"), ("r", "rd.png"), ("R", "rl.png")]

/-- Go map indexing `pieceNames[s]`: the zero value "" when absent. -/
def pieceNamesGet (s : String) : String := (pieceNames.lookup s).getD ""

/-- Go `int(float64(g) * q)`: the exact product of g and q is
`(g * q.num) / q.den` as a rational, and Go's float-to-int conversion
truncates toward zero, which `goDiv` does for the positive denominator. -/
def truncF64Mul (g : Int) (q : ℚ) : Int := goDiv (g * q.num) (q.den : Int)

/-- `func calcDrawSize(o Options) drawSize` (renderer.go lines 283-291):
`gridSize = o.BoardSize / 8` (Go integer division),
`pieceSize = int(float64(gridSize) * o.PieceRatio)`,
`pieceOffset = int((gridSize - pieceSize) / 2)` (Go integer division). -/
def calcDrawSize (o : Options) : drawSize :=
  let gridSize := goDiv o.BoardSize 8
  let pieceSize := truncF64Mul gridSize o.PieceRatio
  { gridSize := gridSize, pieceSize := pieceSize,
    pieceOffset := goDiv (gridSize - pieceSize) 2 }

/-- `if options.BoardSize <= 0 { options.BoardSize = defaultBoardSize }`
(renderer.go lines 100-102). -/
def normalizeBoardSize (o : Options) : Options :=
  if o.BoardSize ≤ 0 then { o with BoardSize := defaultBoardSize } else o

/-- `if options.PieceRatio <= 0.0 { options.PieceRatio = defaultPieceRatio }`
(renderer.go lines 103-105). -/
def normalizePieceRatio (o : Options) : Options :=
  if o.PieceRatio ≤ 0 then { o with PieceRatio := defaultPieceRatio } else o

/-- `if options.Resizer == nil { options.Resizer = draw.CatmullRom }`
(renderer.go lines 106-108). -/
def normalizeResizer (o : Options) : Options :=
  if o.Resizer = none then { o with Resizer := some Scaler.catmullRom } else o

/-- The option-defaulting prologue of `Render` (renderer.go lines 100-108),
applied in the source's order. -/
def normalizeOptions (o : Options) : Options :=
  normalizeResizer (normalizePieceRatio (normalizeBoardSize o))

/-- `func loadPNG(fs fs.FS, assetPath string)`: a nil file system falls
back to the embedded assets under the "assets/" prefix. -/
def loadPNG (embedded : FileSys) (fs : Option FileSys) (assetPath : String) :
    Except String Image :=
  match fs with
  | none => embedded ("assets/" ++ assetPath)
  | some f => f assetPath

/-- `func resizeImage(piece image.Image, drawSize drawSize, resizer draw.Scaler)`:
the body calls `draw.BiLinear.Scale(dst, rect, piece, piece.Bounds(), draw.Over, nil)`
onto a `pieceSize × pieceSize` rectangle — the `resizer` argument is not used. -/
def resizeImage (piece : Image) (ds : drawSize) (resizer : Option Scaler) : ResizedImage :=
  { srcImage := piece, width := ds.pieceSize, height := ds.pieceSize,
    scaler := Scaler.biLinear, blend := BlendOp.over }

/-- `func (r *Renderer) drawPiece(...)` (renderer.go lines 250-274). -/
def drawPiece (rds : drawSize) (piece : position) (embedded : FileSys)
    (fs : Option FileSys) (assetPath : String) (resizer : Option Scaler)
    (inverted : Bool) : Except String DrawOp :=
  match loadPNG embedded fs (assetPath ++ pieceNamesGet piece.pieceSymbol) with
  | .error e => .error e
  | .ok png =>
    let resized := resizeImage png rds resizer
    let gridSize := rds.gridSize
    let pieceOffset := rds.pieceOffset
    let pieceRank := if inverted then Tile.rankInverted piece.tile else Tile.rank piece.tile
    let pieceFile := if inverted then Tile.fileInverted piece.tile else Tile.file piece.tile
    .ok (DrawOp.drawImage resized (gridSize * pieceRank + pieceOffset)
      (gridSize * pieceFile + pieceOffset))

/-- `func (r *Renderer) drawBoard(o Options) error`: draw each board
position in order, stopping at the first piece whose sprite fails. -/
def drawBoard (rds : drawSize) (b : board) (embedded : FileSys) (o : Options) :
    Except String (List DrawOp) :=
  match b with
  | [] => .ok []
  | p :: rest =>
    match drawPiece rds p embedded o.FileSystem o.AssetPath o.Resizer o.Inverted with
    | .error e => .error e
    | .ok op =>
      match drawBoard rds rest embedded o with
      | .error e => .error e
      | .ok ops => .ok (op :: ops)

/-- `func (r *Renderer) drawBackground()` (renderer.go lines 121-134). -/
def drawBackgroundOps (ds : drawSize) : List DrawOp :=
  (List.range 8).flatMap fun row =>
    (List.range 8).map fun col =>
      DrawOp.fillRect ((row : Int) * ds.gridSize) ((col : Int) * ds.gridSize)
        ds.gridSize ds.gridSize
        (if (col + row) % 2 = 0 then colorLight else colorDark)

/-- `func (r *Renderer) highlightCells(o Options)` (renderer.go lines 136-177). -/
def highlightCellsOps (r : Renderer) (o : Options) (ds : drawSize) : List DrawOp :=
  match r.lastMove with
  | none => []
  | some lm =>
    let lastMoveFromRank := if o.Inverted then Tile.rankInverted lm.From else Tile.rank lm.From
    let lastMoveFromFile := if o.Inverted then Tile.fileInverted lm.From else Tile.file lm.From
    let lastMoveToRank := if o.Inverted then Tile.rankInverted lm.To else Tile.rank lm.To
    let lastMoveToFile := if o.Inverted then Tile.fileInverted lm.To else Tile.file lm.To
    let moveFromHighlight :=
      if goMod lastMoveFromRank 2 ≠ goMod lastMoveFromFile 2 then colorHighlightDark
      else colorHighlightLight
    let moveToHighlight :=
      if goMod lastMoveToRank 2 ≠ goMod lastMoveToFile 2 then colorHighlightDark
      else colorHighlightLight
    [DrawOp.fillRect (lastMoveFromFile * ds.gridSize) (lastMoveFromRank * ds.gridSize)
       ds.gridSize ds.gridSize moveFromHighlight,
     DrawOp.fillRect (lastMoveToFile * ds.gridSize) (lastMoveToRank * ds.gridSize)
       ds.gridSize ds.gridSize moveToHighlight]

/-- The `checkTileFile` local of `drawCheckTile`. -/
def checkTileFile (r : Renderer) (o : Options) : Int :=
  if o.Inverted then Tile.fileInverted r.checkTile else Tile.file r.checkTile

/-- The `checkTileRank` local of `drawCheckTile`. -/
def checkTileRank (r : Renderer) (o : Options) : Int :=
  if o.Inverted then Tile.rankInverted r.checkTile else Tile.rank r.checkTile

/-- `func (r *Renderer) drawCheckTile(o Options)` (renderer.go lines 179-200):
nothing when `checkTile == NoTile`, else one red square fill. -/
def drawCheckTileOps (r : Renderer) (o : Options) (ds : drawSize) : List DrawOp :=
  if r.checkTile = NoTile then []
  else
    [DrawOp.fillRect (checkTileFile r o * ds.gridSize) (checkTileRank r o * ds.gridSize)
       ds.gridSize ds.gridSize colorCheck]

/-- `func (r *Renderer) drawRankFile(o Options)` (renderer.go lines 211-248). -/
def drawRankFileOps (o : Options) (ds : drawSize) : List DrawOp :=
  let fileSyms := if o.Inverted then fileSymbolsReverse else fileSymbols
  let fileOps := fileSyms.toList.enum.map fun iv =>
    DrawOp.drawString iv.2.toString (ds.gridSize * (iv.1 : Int) + 2) (o.BoardSize - 3)
      (if iv.1 % 2 = 0 then colorLight else colorDark)
  let rankSyms := if o.Inverted then rankSymbols else rankSymbolsReverse
  let rankOps := rankSyms.toList.enum.map fun iv =>
    DrawOp.drawString iv.2.toString (o.BoardSize - 10) (ds.gridSize * (iv.1 : Int) + 12)
      (if iv.1 % 2 = 0 then colorLight else colorDark)
  fileOps ++ rankOps

/-- The draw operations `Render` performs before the piece pass, in the
source's strict order: background, last-move highlights, check tile,
rank/file labels. -/
def preBoardOps (r : Renderer) (o : Options) (ds : drawSize) : List DrawOp :=
  drawBackgroundOps ds ++ highlightCellsOps r o ds ++ drawCheckTileOps r o ds
    ++ drawRankFileOps o ds

/-- `func (r *Renderer) Render(options Options) (image.Image, error)`
(renderer.go lines 99-119): normalize options, compute the draw size,
run the layer passes in order, and return the canvas — or the first piece
error with no image. -/
def Render (r : Renderer) (embedded : FileSys) (options : Options) :
    Except String RenderResult :=
  match drawBoard (calcDrawSize (normalizeOptions options)) r.board embedded
      (normalizeOptions options) with
  | .error e => .error e
  | .ok pieceOps =>
    .ok { size := (normalizeOptions options).BoardSize,
          ops := preBoardOps r (normalizeOptions options)
            (calcDrawSize (normalizeOptions options)) ++ pieceOps }

/-- The piece letters a FEN placement field may hold. -/
def pieceSymbolChars : List Char :=
  ['p', 'n', 'b', 'r', 'q', 'k', 'P', 'N', 'B', 'R', 'Q', 'K']

/-- Modelled from the spec: the body of `decodeFEN`, whose source is not
under src/ (only its caller `NewRendererFromFEN` is).  Spec section 4.2: scan
the placement field left to right; a digit 1-8 advances the file cursor,
`/` resets the file cursor and advances the rank cursor, a piece letter
emits a Position at the current (rank, file) and advances the file cursor,
any other character is a malformed-FEN error. -/
def decodePlacement : List Char → Int → Int → List position →
    Except String (List position)
  | [], _, _, acc => .ok acc.reverse
  | c :: rest, rk, fl, acc =>
    if c = '/' then
      decodePlacement rest (rk + 1) 0 acc
    else if '1' ≤ c ∧ c ≤ '8' then
      decodePlacement rest rk (fl + ((c.toNat : Int) - ('0'.toNat : Int))) acc
    else if c ∈ pieceSymbolChars then
      decodePlacement rest rk (fl + 1)
        ({ tile := tileFromRankFile rk fl, pieceSymbol := c.toString } :: acc)
    else
      .error ("unexpected character in FEN: " ++ c.toString)

/-- Modelled from the spec: `decodeFEN`, whose source is not under src/.
Spec section 4.2: only the first space-delimited field is consumed; an
empty field is a decode error. -/
def decodeFEN (fen : String) : Except String board :=
  let placement := fen.toList.takeWhile fun c => c ≠ ' '
  if placement = [] then .error "empty FEN placement field"
  else decodePlacement placement 0 0 []

/-- `func NewRendererFromFEN(fen string) (*Renderer, error)`. -/
def NewRendererFromFEN (fen : String) : Except String Renderer :=
  match decodeFEN fen with
  | .error e => .error e
  | .ok b => .ok { board := b, checkTile := NoTile, lastMove := none }

/-- `func (r *Renderer) SetCheckTile(tile Tile)`. -/
def SetCheckTile (r : Renderer) (tile : Tile) : Renderer :=
  { r with checkTile := tile }

/-- `func (r *Renderer) SetLastMove(lastMove LastMove)`. -/
def SetLastMove (r : Renderer) (lastMove : LastMove) : Renderer :=
  { r with lastMove := some lastMove }

/-- The fill color an operation paints, `none` for non-fill operations. -/
def fillColor : DrawOp → Option Color
  | .fillRect _ _ _ _ c => some c
  | _ => none

/-- The operation is the check layer's pure-red square fill. -/
abbrev isRedFill (op : DrawOp) : Prop := fillColor op = some colorCheck

/-- The operation is one of the last-move highlight fills. -/
abbrev isHighlightFill (op : DrawOp) : Prop :=
  fillColor op = some colorHighlightLight ∨ fillColor op = some colorHighlightDark

/-- Whether a fill operation covers the pixel (px, py). -/
def fillCovers (op : DrawOp) (px py : Int) : Bool :=
  match op with
  | .fillRect x y w h _ =>
    decide (x ≤ px) && decide (px < x + w) && decide (y ≤ py) && decide (py < y + h)
  | _ => false

/-- The color of the last opaque rectangle fill covering pixel (px, py):
later fills overwrite earlier ones. -/
def lastFillColorAt (ops : List DrawOp) (px py : Int) : Option Color :=
  match (ops.filter fun op => fillCovers op px py).getLast? with
  | some (.fillRect _ _ _ _ c) => some c
  | _ => none

/-- The grid cell (column, row) containing pixel (px, py), for cells of
side g. -/
def cellOf (px py g : Int) : Int × Int := (goDiv px g, goDiv py g)

/-- The scalers that performed the sprite scaling steps of a render, in
draw order. -/
def scalersUsed (res : RenderResult) : List Scaler :=
  res.ops.filterMap fun op =>
    match op with
    | .drawImage img _ _ => some img.scaler
    | _ => none

/-- The layer passes `Render` performs before the piece pass, at the
normalized options. -/
def renderLayerOps (r : Renderer) (o : Options) : List DrawOp :=
  preBoardOps r (normalizeOptions o) (calcDrawSize (normalizeOptions o))

/-- Options with BoardSize 500 and the default ratio: the section-8
boundary scenario (500 is not a multiple of 8). -/
def o500 : Options := { defaultOptions with BoardSize := 500, PieceRatio := mkRat 9 10 }

/-- Options with BoardSize 8 and PieceRatio 4: a ratio above 1 makes
gridSize − pieceSize negative. -/
def o84 : Options := { defaultOptions with BoardSize := 8, PieceRatio := 4 }

/-- Options with only BoardSize set, to 100. -/
def o100 : Options := { defaultOptions with BoardSize := 100 }

/-- A renderer holding a single white pawn on e5, no check, no last move. -/
def onePawnRenderer : Renderer :=
  { board := [{ tile := E5, pieceSymbol := "P" }], checkTile := NoTile, lastMove := none }

/-- The renderer decoded from the empty board. -/
def emptyRenderer : Renderer := { board := [], checkTile := NoTile, lastMove := none }

/-- The demo CLI's last move, d1 to h5. -/
def demoLastMove : LastMove := { From := D1, To := H5 }

/-- An empty-board renderer with check tile e8 and last move d1-h5, the
demo CLI setup. -/
def demoRenderer : Renderer := { board := [], checkTile := E8, lastMove := some demoLastMove }

/-- An asset source resolving every path to the same decoded image. -/
def okOracle : FileSys := fun _ => .ok { id := 0 }

/-- An asset source failing every open with "missing file". -/
def failOracle : FileSys := fun _ => .error "missing file"

end Chessimage

namespace Chessimage

lemma goDiv_nonneg_eq (a b : Int) (h : 0 ≤ a) : goDiv a b = a / b := by
  unfold goDiv
  rw [if_neg (by omega)]

lemma goMod_nonneg_eq (a b : Int) (h : 0 ≤ a) : goMod a b = a % b := by
  unfold goMod
  rw [if_neg (by omega)]

lemma rank_of_nonneg (t : Tile) (h1 : 0 ≤ t) : Tile.rank t = t / 8 := by
  unfold Tile.rank
  exact goDiv_nonneg_eq t 8 h1

lemma file_of_nonneg (t : Tile) (h1 : 0 ≤ t) : Tile.file t = t % 8 := by
  unfold Tile.file
  exact goMod_nonneg_eq t 8 h1

lemma lookup_eq_none_of_not_mem_keys :
    ∀ {l : List (String × Tile)} {s : String}, s ∉ l.map Prod.fst → l.lookup s = none := by
  intro l
  induction l with
  | nil => intro s _; rfl
  | cons hd tl ih =>
    intro s hs
    obtain ⟨k, v⟩ := hd
    simp only [List.map_cons, List.mem_cons] at hs
    push_neg at hs
    simp only [List.lookup]
    rw [show (s == k) = false by simpa using hs.1]
    exact ih hs.2

end Chessimage

namespace Chessimage

/-- C2 counterexample: `tileFromRankFile(0, 1)` is tile 8, whose `rank()` is
1, not the original rank 0 — the constructor composed with the projections
swaps the pair instead of returning it. -/
theorem c2_roundtrip_fails_cex :
    ¬ (Tile.rank (tileFromRankFile 0 1) = 0 ∧ Tile.file (tileFromRankFile 0 1) = 1) := by
  decide

/-- C2 (amended): for rank, file in [0,7], `tileFromRankFile(rank, file)`
composed with the projections returns the pair swapped:
`.rank()` gives the file argument and `.file()` gives the rank argument. -/
theorem c2_roundtrip_swapped (rk fl : Int) (h1 : 0 ≤ rk) (h2 : rk ≤ 7)
    (h3 : 0 ≤ fl) (h4 : fl ≤ 7) :
    Tile.rank (tileFromRankFile rk fl) = fl ∧ Tile.file (tileFromRankFile rk fl) = rk := by
  unfold tileFromRankFile wrapInt8 Tile.rank Tile.file goDiv goMod
  constructor <;> split <;> omega

/-- C2 witness: the amended round trip evaluated at rank 3, file 4. -/
theorem c2_roundtrip_swapped_witness :
    ((0:Int) ≤ 3 ∧ (3:Int) ≤ 7 ∧ (0:Int) ≤ 4 ∧ (4:Int) ≤ 7) ∧
      (Tile.rank (tileFromRankFile 3 4) = 4 ∧ Tile.file (tileFromRankFile 3 4) = 3) :=
  ⟨by decide, c2_roundtrip_swapped 3 4 (by decide) (by decide) (by decide) (by decide)⟩

/-- C3 counterexample: at tile index 8, `file()` is 0 while 8 div 8 = 1, and
`rank()` is 1 while 8 mod 8 = 0 — the projections are the opposite of the
claimed "file = index/8, rank = index%8". -/
theorem c3_projections_cex :
    ¬ (Tile.file 8 = 8 / 8 ∧ Tile.rank 8 = 8 % 8) := by
  decide

/-- C3 (amended): for every tile index t in [0,63], `rank()` computes
t div 8 and `file()` computes t mod 8. -/
theorem c3_projections (t : Tile) (h1 : 0 ≤ t) (h2 : t ≤ 63) :
    Tile.rank t = t / 8 ∧ Tile.file t = t % 8 :=
  ⟨rank_of_nonneg t h1, file_of_nonneg t h1⟩

/-- C3 witness: the amended projections evaluated at tile index 28. -/
theorem c3_projections_witness :
    ((0:Int) ≤ 28 ∧ (28:Int) ≤ 63) ∧ (Tile.rank 28 = 28 / 8 ∧ Tile.file 28 = 28 % 8) :=
  ⟨by decide, c3_projections 28 (by decide) (by decide)⟩

/-- C8: `TileFromAN "e5"` succeeds with the tile E5, whose `rank()` is 3 and
`file()` is 4; and on any string that is not one of the 64 algebraic names in
`tileMap`, `TileFromAN` returns the not-found error. -/
theorem c8_tileFromAN (s : String) (hs : s ∉ tileMap.map Prod.fst) :
    (TileFromAN "e5" = .ok E5 ∧ Tile.rank E5 = 3 ∧ Tile.file E5 = 4) ∧
      TileFromAN s = .error ("tile " ++ s ++ " not found") := by
  refine ⟨⟨by rfl, by decide, by decide⟩, ?_⟩
  unfold TileFromAN
  rw [lookup_eq_none_of_not_mem_keys hs]

/-- C8 witness: "z9" is not an algebraic name, and `TileFromAN "z9"` returns
the not-found error. -/
theorem c8_tileFromAN_witness :
    ("z9" ∉ tileMap.map Prod.fst) ∧
      (TileFromAN "z9" = .error ("tile " ++ "z9" ++ " not found")) :=
  ⟨by decide, (c8_tileFromAN "z9" (by decide)).2⟩

end Chessimage


namespace Chessimage

lemma normalizeBoardSize_fields (p : Options) :
    (normalizeBoardSize p).FileSystem = p.FileSystem ∧
      (normalizeBoardSize p).AssetPath = p.AssetPath ∧
      (normalizeBoardSize p).Resizer = p.Resizer ∧
      (normalizeBoardSize p).PieceRatio = p.PieceRatio ∧
      (normalizeBoardSize p).Inverted = p.Inverted := by
  unfold normalizeBoardSize
  split_ifs <;> exact ⟨rfl, rfl, rfl, rfl, rfl⟩

lemma normalizePieceRatio_fields (p : Options) :
    (normalizePieceRatio p).FileSystem = p.FileSystem ∧
      (normalizePieceRatio p).AssetPath = p.AssetPath ∧
      (normalizePieceRatio p).Resizer = p.Resizer ∧
      (normalizePieceRatio p).BoardSize = p.BoardSize ∧
      (normalizePieceRatio p).Inverted = p.Inverted := by
  unfold normalizePieceRatio
  split_ifs <;> exact ⟨rfl, rfl, rfl, rfl, rfl⟩

lemma normalizeResizer_fields (p : Options) :
    (normalizeResizer p).FileSystem = p.FileSystem ∧
      (normalizeResizer p).AssetPath = p.AssetPath ∧
      (normalizeResizer p).BoardSize = p.BoardSize ∧
      (normalizeResizer p).PieceRatio = p.PieceRatio ∧
      (normalizeResizer p).Inverted = p.Inverted := by
  unfold normalizeResizer
  split_ifs <;> exact ⟨rfl, rfl, rfl, rfl, rfl⟩

lemma normalizeOptions_BoardSize (o : Options) :
    (normalizeOptions o).BoardSize =
      if o.BoardSize ≤ 0 then defaultBoardSize else o.BoardSize := by
  unfold normalizeOptions
  rw [(normalizeResizer_fields _).2.2.1, (normalizePieceRatio_fields _).2.2.2.1]
  unfold normalizeBoardSize
  split_ifs <;> rfl

lemma normalizeOptions_PieceRatio (o : Options) :
    (normalizeOptions o).PieceRatio =
      if o.PieceRatio ≤ 0 then defaultPieceRatio else o.PieceRatio := by
  unfold normalizeOptions
  rw [(normalizeResizer_fields _).2.2.2.1]
  unfold normalizePieceRatio
  rw [(normalizeBoardSize_fields o).2.2.2.1]
  split_ifs <;> first
  | rfl
  | exact (normalizeBoardSize_fields o).2.2.2.1

lemma normalizeOptions_Resizer (o : Options) :
    (normalizeOptions o).Resizer =
      if o.Resizer = none then some Scaler.catmullRom else o.Resizer := by
  unfold normalizeOptions normalizeResizer
  rw [(normalizePieceRatio_fields _).2.2.1, (normalizeBoardSize_fields o).2.2.1]
  split_ifs <;> first
  | rfl
  | rw [(normalizePieceRatio_fields _).2.2.1, (normalizeBoardSize_fields o).2.2.1]

lemma normalizeOptions_fields (o : Options) :
    (normalizeOptions o).FileSystem = o.FileSystem ∧
      (normalizeOptions o).AssetPath = o.AssetPath ∧
      (normalizeOptions o).Inverted = o.Inverted := by
  unfold normalizeOptions
  refine ⟨?_, ?_, ?_⟩
  · rw [(normalizeResizer_fields _).1, (normalizePieceRatio_fields _).1,
      (normalizeBoardSize_fields o).1]
  · rw [(normalizeResizer_fields _).2.1, (normalizePieceRatio_fields _).2.1,
      (normalizeBoardSize_fields o).2.1]
  · rw [(normalizeResizer_fields _).2.2.2.2, (normalizePieceRatio_fields _).2.2.2.2,
      (normalizeBoardSize_fields o).2.2.2.2]

lemma normalizeOptions_BoardSize_pos (o : Options) : 0 < (normalizeOptions o).BoardSize := by
  rw [normalizeOptions_BoardSize]
  unfold defaultBoardSize
  split_ifs <;> omega

lemma normalizeOptions_PieceRatio_pos (o : Options) : 0 < (normalizeOptions o).PieceRatio := by
  rw [normalizeOptions_PieceRatio]
  split_ifs with h
  · decide
  · exact not_le.mp h

lemma normalizeOptions_Resizer_ne (o : Options) : (normalizeOptions o).Resizer ≠ none := by
  rw [normalizeOptions_Resizer]
  split_ifs with h
  · simp
  · exact h

lemma normalizeOptions_idem (o : Options) :
    normalizeOptions (normalizeOptions o) = normalizeOptions o := by
  have e1 : normalizeBoardSize (normalizeOptions o) = normalizeOptions o := by
    unfold normalizeBoardSize
    rw [if_neg (not_le.mpr (normalizeOptions_BoardSize_pos o))]
  have e2 : normalizePieceRatio (normalizeOptions o) = normalizeOptions o := by
    unfold normalizePieceRatio
    rw [if_neg (not_le.mpr (normalizeOptions_PieceRatio_pos o))]
  have e3 : normalizeResizer (normalizeOptions o) = normalizeOptions o := by
    unfold normalizeResizer
    rw [if_neg (normalizeOptions_Resizer_ne o)]
  show normalizeResizer (normalizePieceRatio (normalizeBoardSize (normalizeOptions o))) =
    normalizeOptions o
  rw [e1, e2, e3]

/-- C6: Render's option defaulting — a non-positive BoardSize becomes 512
while positive ones pass through unchanged, a non-positive PieceRatio
becomes 0.9 while positive ones pass through unchanged, and the defaulting
is idempotent, so applying it twice yields the same effective geometry
as applying it once. -/
theorem c6_options_defaulting (o : Options) :
    ((o.BoardSize ≤ 0 → (normalizeOptions o).BoardSize = 512) ∧
      (0 < o.BoardSize → (normalizeOptions o).BoardSize = o.BoardSize)) ∧
    ((o.PieceRatio ≤ 0 → (normalizeOptions o).PieceRatio = defaultPieceRatio) ∧
      (0 < o.PieceRatio → (normalizeOptions o).PieceRatio = o.PieceRatio)) ∧
    normalizeOptions (normalizeOptions o) = normalizeOptions o ∧
    calcDrawSize (normalizeOptions (normalizeOptions o)) = calcDrawSize (normalizeOptions o) := by
  have hidem := normalizeOptions_idem o
  refine ⟨⟨fun h => ?_, fun h => ?_⟩, ⟨fun h => ?_, fun h => ?_⟩, hidem, by rw [hidem]⟩
  · rw [normalizeOptions_BoardSize, if_pos h]; rfl
  · rw [normalizeOptions_BoardSize, if_neg (not_le.mpr h)]
  · rw [normalizeOptions_PieceRatio, if_pos h]
  · rw [normalizeOptions_PieceRatio, if_neg (not_le.mpr h)]

/-- C6 witness: defaulting evaluated at the zero-value Options (both
defaults fire) and at BoardSize 100 (passes through unchanged). -/
theorem c6_options_defaulting_witness :
    (defaultOptions.BoardSize ≤ 0 ∧ (normalizeOptions defaultOptions).BoardSize = 512) ∧
    (defaultOptions.PieceRatio ≤ 0 ∧
      (normalizeOptions defaultOptions).PieceRatio = defaultPieceRatio) ∧
    normalizeOptions (normalizeOptions defaultOptions) = normalizeOptions defaultOptions ∧
    ((0:Int) < o100.BoardSize ∧ (normalizeOptions o100).BoardSize = o100.BoardSize) :=
  ⟨⟨by decide, (c6_options_defaulting defaultOptions).1.1 (by decide)⟩,
   ⟨by decide, (c6_options_defaulting defaultOptions).2.1.1 (by decide)⟩,
   (c6_options_defaulting defaultOptions).2.2.1,
   ⟨by decide, (c6_options_defaulting o100).1.2 (by decide)⟩⟩

lemma truncF64Mul_eq_floor (g : Int) (p : ℚ) (hg : 0 ≤ g) (hp : 0 < p) :
    truncF64Mul g p = ⌊(g : ℚ) * p⌋ := by
  unfold truncF64Mul
  have hnum : 0 < p.num := Rat.num_pos.mpr hp
  rw [goDiv_nonneg_eq _ _ (mul_nonneg hg hnum.le)]
  have hcast : (g : ℚ) * p = ((g * p.num : Int) : ℚ) / ((p.den : ℕ) : ℚ) := by
    calc (g : ℚ) * p = (g : ℚ) * ((p.num : ℚ) / (p.den : ℚ)) := by rw [Rat.num_div_den]
    _ = ((g * p.num : Int) : ℚ) / ((p.den : ℕ) : ℚ) := by push_cast; ring
  rw [hcast, Rat.floor_intCast_div_natCast]

/-- C7 counterexample: with effective BoardSize 8 and PieceRatio 4 (both
positive), gridSize is 1 and pieceSize is 4, and the code's pieceOffset is
the truncation of (1-4)/2 toward zero, i.e. -1, not the claimed
floor((gridSize - pieceSize)/2) = -2 (Lean's `/` on Int is floor division
for the positive divisor 2). -/
theorem c7_pieceOffset_cex :
    ¬ ((calcDrawSize o84).pieceOffset =
        ((calcDrawSize o84).gridSize - (calcDrawSize o84).pieceSize) / 2) := by
  decide

/-- C7 (amended): for every effective board size B > 0 and piece ratio
p > 0, calcDrawSize yields gridSize = B div 8 and
pieceSize = floor(gridSize · p); pieceOffset is (gridSize − pieceSize)/2
rounded toward zero, which equals floor((gridSize − pieceSize)/2) whenever
pieceSize ≤ gridSize (in particular whenever p ≤ 1); and B = 500 yields
gridSize 62, leaving a 4px unpainted margin on two edges. -/
theorem c7_calcDrawSize (o : Options) (hB : 0 < o.BoardSize) (hp : 0 < o.PieceRatio) :
    (calcDrawSize o).gridSize = o.BoardSize / 8 ∧
    (calcDrawSize o).pieceSize = ⌊((calcDrawSize o).gridSize : ℚ) * o.PieceRatio⌋ ∧
    ((calcDrawSize o).pieceSize ≤ (calcDrawSize o).gridSize →
      (calcDrawSize o).pieceOffset =
        ((calcDrawSize o).gridSize - (calcDrawSize o).pieceSize) / 2) ∧
    (o.BoardSize = 500 →
      (calcDrawSize o).gridSize = 62 ∧ o.BoardSize - 8 * (calcDrawSize o).gridSize = 4) := by
  have hg : (calcDrawSize o).gridSize = goDiv o.BoardSize 8 := rfl
  have hgdiv : (calcDrawSize o).gridSize = o.BoardSize / 8 := by
    rw [hg, goDiv_nonneg_eq _ _ hB.le]
  have hg0 : 0 ≤ (calcDrawSize o).gridSize := by
    rw [hgdiv]
    exact Int.ediv_nonneg hB.le (by omega)
  have hps : (calcDrawSize o).pieceSize = truncF64Mul (calcDrawSize o).gridSize o.PieceRatio := rfl
  have hpo : (calcDrawSize o).pieceOffset =
      goDiv ((calcDrawSize o).gridSize - (calcDrawSize o).pieceSize) 2 := rfl
  refine ⟨hgdiv, ?_, fun hle => ?_, fun h500 => ?_⟩
  · rw [hps, truncF64Mul_eq_floor _ _ hg0 hp]
  · rw [hpo, goDiv_nonneg_eq _ _ (by omega)]
  · constructor
    · rw [hgdiv, h500]
      decide
    · rw [hgdiv, h500]
      decide

/-- C7 witness: the amended geometry evaluated at BoardSize 500 with the
default ratio 0.9: gridSize 62 = 500 div 8, with a 4px margin. -/
theorem c7_calcDrawSize_witness :
    ((0:Int) < o500.BoardSize ∧ (0:ℚ) < o500.PieceRatio) ∧
    ((calcDrawSize o500).gridSize = o500.BoardSize / 8 ∧
      o500.BoardSize - 8 * (calcDrawSize o500).gridSize = 4) :=
  ⟨⟨by decide, by decide⟩,
   ⟨(c7_calcDrawSize o500 (by decide) (by decide)).1,
    ((c7_calcDrawSize o500 (by decide) (by decide)).2.2.2 rfl).2⟩⟩

/-- C1 (code bug): Options.Resizer defaults to the CatmullRom resampler
when unset and is threaded down to `resizeImage`, but `resizeImage` scales
every sprite with `draw.BiLinear` regardless of its resizer argument —
so the scaling step applied to the sprites is not the configured resizer:
a default-options render of one piece records BiLinear, not the configured
CatmullRom. -/
theorem c1_resizer_ignored :
    (normalizeOptions defaultOptions).Resizer = some Scaler.catmullRom ∧
    (∀ img ds rz, (resizeImage img ds rz).scaler = Scaler.biLinear) ∧
    Scaler.biLinear ≠ Scaler.catmullRom ∧
    (Render onePawnRenderer okOracle defaultOptions).map scalersUsed =
      .ok [Scaler.biLinear] :=
  ⟨by decide, fun img ds rz => rfl, by decide, by rfl⟩

/-- C9: Render is deterministic — two renderers built from the same FEN,
given the same check-tile and last-move settings, produce identical result
images under the same options and asset source.  (`decodeFEN` is modelled
from the spec; its source is not under src/.) -/
theorem c9_render_deterministic (fen : String) (r1 r2 : Renderer) (ct : Tile)
    (lm : LastMove) (emb : FileSys) (o : Options)
    (h1 : NewRendererFromFEN fen = .ok r1) (h2 : NewRendererFromFEN fen = .ok r2) :
    Render (SetLastMove (SetCheckTile r1 ct) lm) emb o =
      Render (SetLastMove (SetCheckTile r2 ct) lm) emb o := by
  rw [h1] at h2
  injection h2 with h
  rw [h]

/-- C9 witness: the empty board FEN decodes to the empty board, and the
resulting renderer renders identically to itself with check tile E8 and
last move d1-h5 under default options. -/
theorem c9_render_deterministic_witness :
    NewRendererFromFEN "8/8/8/8/8/8/8/8 w - - 0 1" = .ok emptyRenderer ∧
    Render (SetLastMove (SetCheckTile emptyRenderer E8) demoLastMove) okOracle
        defaultOptions =
      Render (SetLastMove (SetCheckTile emptyRenderer E8) demoLastMove) okOracle
        defaultOptions :=
  ⟨by rfl,
   c9_render_deterministic "8/8/8/8/8/8/8/8 w - - 0 1" emptyRenderer emptyRenderer E8
     demoLastMove okOracle defaultOptions (by rfl) (by rfl)⟩

lemma drawBoard_error_of_failing_piece (rds : drawSize) (emb : FileSys) (o : Options)
    (p : position) (e : String) (post : List position)
    (hp : loadPNG emb o.FileSystem (o.AssetPath ++ pieceNamesGet p.pieceSymbol) = .error e) :
    ∀ pre : List position,
      (∀ q ∈ pre, ∃ img,
        loadPNG emb o.FileSystem (o.AssetPath ++ pieceNamesGet q.pieceSymbol) = .ok img) →
      drawBoard rds (pre ++ p :: post) emb o = .error e := by
  intro pre
  induction pre with
  | nil =>
    intro _
    rw [List.nil_append]
    unfold drawBoard drawPiece
    rw [hp]
  | cons q rest ih =>
    intro hpre
    obtain ⟨img, himg⟩ := hpre q (by simp)
    rw [List.cons_append]
    unfold drawBoard drawPiece
    rw [himg, ih fun x hx => hpre x (by simp [hx])]

/-- C5: if loading or decoding any piece sprite fails during Render, Render
returns that error and no image; every piece before the failing one loads,
and the board tail after the failure never affects the result — the first
failing piece aborts the remaining piece draws. -/
theorem c5_render_aborts (r : Renderer) (emb : FileSys) (o : Options)
    (pre post : List position) (p : position) (e : String)
    (hb : r.board = pre ++ p :: post)
    (hpre : ∀ q ∈ pre, ∃ img,
      loadPNG emb o.FileSystem (o.AssetPath ++ pieceNamesGet q.pieceSymbol) = .ok img)
    (hp : loadPNG emb o.FileSystem (o.AssetPath ++ pieceNamesGet p.pieceSymbol) = .error e) :
    Render r emb o = .error e := by
  obtain ⟨hFS, hAP, -⟩ := normalizeOptions_fields o
  have hp' : loadPNG emb (normalizeOptions o).FileSystem
      ((normalizeOptions o).AssetPath ++ pieceNamesGet p.pieceSymbol) = .error e := by
    rw [hFS, hAP]
    exact hp
  have hpre' : ∀ q ∈ pre, ∃ img, loadPNG emb (normalizeOptions o).FileSystem
      ((normalizeOptions o).AssetPath ++ pieceNamesGet q.pieceSymbol) = .ok img := by
    intro q hq
    rw [hFS, hAP]
    exact hpre q hq
  unfold Render
  rw [hb, drawBoard_error_of_failing_piece _ emb (normalizeOptions o) p e post hp' pre hpre']

/-- C5 witness: a single pawn on e5 whose sprite source always fails with
"missing file": Render returns exactly that error and no image. -/
theorem c5_render_aborts_witness :
    Render onePawnRenderer failOracle defaultOptions = .error "missing file" :=
  c5_render_aborts onePawnRenderer failOracle defaultOptions [] []
    { tile := E5, pieceSymbol := "P" } "missing file" rfl (by simp) rfl

end Chessimage

namespace Chessimage

lemma goDiv_mul_left (a g : Int) (ha : 0 ≤ a) (hg : 0 < g) : goDiv (a * g) g = a := by
  rw [goDiv_nonneg_eq _ _ (mul_nonneg ha hg.le)]
  exact Int.mul_ediv_cancel a (by omega)

lemma goDiv_mul_add_offset (a g off : Int) (ha : 0 ≤ a) (hg : 0 < g)
    (h0 : 0 ≤ off) (h1 : off < g) : goDiv (g * a + off) g = a := by
  rw [goDiv_nonneg_eq _ _ (add_nonneg (mul_nonneg hg.le ha) h0)]
  rw [add_comm, Int.add_mul_ediv_left off a (by omega)]
  rw [Int.ediv_eq_zero_of_lt h0 h1]
  omega

lemma rank_file_bounds (t : Tile) (h1 : 0 ≤ t) (h2 : t ≤ 63) :
    0 ≤ Tile.rank t ∧ Tile.rank t ≤ 7 ∧ 0 ≤ Tile.file t ∧ Tile.file t ≤ 7 := by
  have h1i : (0 : Int) ≤ t := h1
  have h2i : (63 : Int) ≥ t := h2
  rw [rank_of_nonneg t h1, file_of_nonneg t h1]
  omega

/-- C10: under non-inverted rendering, the check rectangle (and the
last-move highlight rectangle) for tile t is drawn at pixel origin
(file·g, rank·g), while the piece sprite for t is placed at
(g·rank + off, g·file + off) — the x/y roles of rank and file are
transposed between the two layers, so the highlight and the piece occupy
the same grid cell exactly when the tile's rank equals its file. -/
theorem c10_transposed_layers (b : board) (ct : Tile) (lm : Option LastMove)
    (u t : Tile) (o : Options) (ds : drawSize)
    (hinv : o.Inverted = false) (ht0 : 0 ≤ t) (ht1 : t ≤ 63)
    (hg : 0 < ds.gridSize) (hoff0 : 0 ≤ ds.pieceOffset)
    (hoff1 : ds.pieceOffset < ds.gridSize) :
    drawCheckTileOps { board := b, checkTile := t, lastMove := lm } o ds =
      [DrawOp.fillRect (Tile.file t * ds.gridSize) (Tile.rank t * ds.gridSize)
        ds.gridSize ds.gridSize colorCheck] ∧
    (∃ c, (highlightCellsOps { board := b, checkTile := ct, lastMove := some { From := t, To := u } } o ds).head? =
      some (DrawOp.fillRect (Tile.file t * ds.gridSize) (Tile.rank t * ds.gridSize)
        ds.gridSize ds.gridSize c)) ∧
    (∀ sym img emb fs path rz,
      loadPNG emb fs (path ++ pieceNamesGet sym) = .ok img →
      drawPiece ds { tile := t, pieceSymbol := sym } emb fs path rz o.Inverted =
        .ok (DrawOp.drawImage (resizeImage img ds rz)
          (ds.gridSize * Tile.rank t + ds.pieceOffset)
          (ds.gridSize * Tile.file t + ds.pieceOffset))) ∧
    cellOf (Tile.file t * ds.gridSize) (Tile.rank t * ds.gridSize) ds.gridSize =
      (Tile.file t, Tile.rank t) ∧
    cellOf (ds.gridSize * Tile.rank t + ds.pieceOffset)
        (ds.gridSize * Tile.file t + ds.pieceOffset) ds.gridSize =
      (Tile.rank t, Tile.file t) ∧
    (((Tile.file t, Tile.rank t) : Int × Int) = (Tile.rank t, Tile.file t) ↔
      Tile.rank t = Tile.file t) := by
  obtain ⟨hr0, hr7, hf0, hf7⟩ := rank_file_bounds t ht0 ht1
  have ht0i : (0 : Int) ≤ t := ht0
  refine ⟨?_, ?_, ?_, ?_, ?_, ?_⟩
  · have hne : ({ board := b, checkTile := t, lastMove := lm } : Renderer).checkTile ≠ NoTile := by
      show t ≠ NoTile
      intro heq
      rw [heq] at ht0i
      exact absurd ht0i (by decide)
    unfold drawCheckTileOps checkTileFile checkTileRank
    rw [if_neg hne]
    simp [hinv]
  · refine ⟨if goMod (Tile.rank t) 2 ≠ goMod (Tile.file t) 2 then colorHighlightDark
      else colorHighlightLight, ?_⟩
    unfold highlightCellsOps
    simp [hinv]
  · intro sym img emb fs path rz hload
    unfold drawPiece
    rw [hload]
    simp [hinv]
  · unfold cellOf
    rw [goDiv_mul_left _ _ hf0 hg, goDiv_mul_left _ _ hr0 hg]
  · unfold cellOf
    rw [goDiv_mul_add_offset _ _ _ hr0 hg hoff0 hoff1,
      goDiv_mul_add_offset _ _ _ hf0 hg hoff0 hoff1]
  · constructor
    · intro h
      have hfst := congrArg Prod.fst h
      simpa using hfst.symm
    · intro h
      rw [h]

/-- C10 witness: tile e5 (rank 3, file 4) with grid size 64 and piece
offset 3: the highlight occupies cell (4, 3) while the piece occupies
cell (3, 4). -/
theorem c10_transposed_layers_witness :
    (defaultOptions.Inverted = false ∧ (0:Int) ≤ E5 ∧ E5 ≤ 63 ∧
      (0:Int) < 64 ∧ (0:Int) ≤ 3 ∧ (3:Int) < 64) ∧
    (cellOf (Tile.file E5 * 64) (Tile.rank E5 * 64) 64 = (Tile.file E5, Tile.rank E5) ∧
      cellOf (64 * Tile.rank E5 + 3) (64 * Tile.file E5 + 3) 64 =
        (Tile.rank E5, Tile.file E5)) :=
  ⟨by decide,
   ⟨(c10_transposed_layers [] NoTile none A8 E5 defaultOptions
       { gridSize := 64, pieceSize := 57, pieceOffset := 3 } rfl (by decide) (by decide)
       (by decide) (by decide) (by decide)).2.2.2.1,
    (c10_transposed_layers [] NoTile none A8 E5 defaultOptions
       { gridSize := 64, pieceSize := 57, pieceOffset := 3 } rfl (by decide) (by decide)
       (by decide) (by decide) (by decide)).2.2.2.2.1⟩⟩

end Chessimage

namespace Chessimage

lemma mem_drawBackgroundOps_color (ds : drawSize) (op : DrawOp)
    (h : op ∈ drawBackgroundOps ds) :
    fillColor op = some colorLight ∨ fillColor op = some colorDark := by
  unfold drawBackgroundOps at h
  simp only [List.mem_flatMap, List.mem_map, List.mem_range] at h
  obtain ⟨row, -, col, -, rfl⟩ := h
  by_cases hpar : (col + row) % 2 = 0
  · left
    simp [fillColor, hpar]
  · right
    simp [fillColor, hpar]

lemma mem_highlightCellsOps_color (r : Renderer) (o : Options) (ds : drawSize) (op : DrawOp)
    (h : op ∈ highlightCellsOps r o ds) :
    fillColor op = some colorHighlightLight ∨ fillColor op = some colorHighlightDark := by
  unfold highlightCellsOps at h
  match hlm : r.lastMove with
  | none =>
    rw [hlm] at h
    simp at h
  | some lm =>
    rw [hlm] at h
    simp only [List.mem_cons, List.not_mem_nil, or_false] at h
    rcases h with rfl | rfl <;> split_ifs <;> simp [fillColor]

lemma mem_drawCheckTileOps_eq (r : Renderer) (o : Options) (ds : drawSize) (op : DrawOp)
    (h : op ∈ drawCheckTileOps r o ds) :
    op = DrawOp.fillRect (checkTileFile r o * ds.gridSize) (checkTileRank r o * ds.gridSize)
      ds.gridSize ds.gridSize colorCheck ∧ r.checkTile ≠ NoTile := by
  unfold drawCheckTileOps at h
  by_cases hc : r.checkTile = NoTile
  · rw [if_pos hc] at h
    simp at h
  · rw [if_neg hc] at h
    simp only [List.mem_cons, List.not_mem_nil, or_false] at h
    exact ⟨h, hc⟩

lemma mem_drawRankFileOps_shape (o : Options) (ds : drawSize) (op : DrawOp)
    (h : op ∈ drawRankFileOps o ds) :
    ∃ s x y c, op = DrawOp.drawString s x y c := by
  unfold drawRankFileOps at h
  simp only [List.mem_append, List.mem_map] at h
  rcases h with ⟨iv, -, rfl⟩ | ⟨iv, -, rfl⟩ <;> exact ⟨_, _, _, _, rfl⟩

lemma drawRankFileOps_fillColor (o : Options) (ds : drawSize) (op : DrawOp)
    (h : op ∈ drawRankFileOps o ds) : fillColor op = none := by
  obtain ⟨s, x, y, c, rfl⟩ := mem_drawRankFileOps_shape o ds op h
  rfl

lemma drawRankFileOps_not_covers (o : Options) (ds : drawSize) (op : DrawOp)
    (px py : Int) (h : op ∈ drawRankFileOps o ds) : fillCovers op px py = false := by
  obtain ⟨s, x, y, c, rfl⟩ := mem_drawRankFileOps_shape o ds op h
  rfl

lemma not_left_of_getElem_append {A B : List DrawOp} {P : DrawOp → Prop}
    (hA : ∀ x ∈ A, ¬ P x) {k : Nat} (hk : k < (A ++ B).length)
    (hP : P ((A ++ B).get ⟨k, hk⟩)) : A.length ≤ k := by
  by_contra hlt
  push_neg at hlt
  rw [List.get_eq_getElem, List.getElem_append_left hlt] at hP
  exact hA _ (List.getElem_mem _) hP

lemma not_right_of_getElem_append {A B : List DrawOp} {P : DrawOp → Prop}
    (hB : ∀ x ∈ B, ¬ P x) {k : Nat} (hk : k < (A ++ B).length)
    (hP : P ((A ++ B).get ⟨k, hk⟩)) : k < A.length := by
  by_contra hge
  push_neg at hge
  rw [List.get_eq_getElem, List.getElem_append_right hge] at hP
  exact hB _ (List.getElem_mem _) hP

lemma highlight_before_red {L A B : List DrawOp} (hL : L = A ++ B)
    (hA : ∀ x ∈ A, ¬ isRedFill x) (hB : ∀ x ∈ B, ¬ isHighlightFill x)
    (i j : Nat) (hi : i < L.length) (hj : j < L.length)
    (hH : isHighlightFill (L.get ⟨i, hi⟩)) (hR : isRedFill (L.get ⟨j, hj⟩)) : i < j := by
  subst hL
  have h1 : i < A.length := not_right_of_getElem_append hB hi hH
  have h2 : A.length ≤ j := not_left_of_getElem_append hA hj hR
  omega

/-- C4: during Render the check-tile square is filled with pure red
(255,0,0) iff CheckTile is not the NoTile sentinel; every red fill comes
after every last-move highlight fill in the layer sequence; and the last
fill covering the check square's pixels is the red one, so when the check
tile coincides with a last-move square the red paint overwrites the
highlight paint on that cell. -/
theorem c4_check_fill (r : Renderer) (o : Options)
    (hg : 0 < (calcDrawSize (normalizeOptions o)).gridSize) :
    ((∃ op ∈ renderLayerOps r o, isRedFill op) ↔ r.checkTile ≠ NoTile) ∧
    (∀ i j (hi : i < (renderLayerOps r o).length) (hj : j < (renderLayerOps r o).length),
      isHighlightFill ((renderLayerOps r o).get ⟨i, hi⟩) →
      isRedFill ((renderLayerOps r o).get ⟨j, hj⟩) → i < j) ∧
    (r.checkTile ≠ NoTile →
      lastFillColorAt (renderLayerOps r o)
        (checkTileFile r (normalizeOptions o) * (calcDrawSize (normalizeOptions o)).gridSize)
        (checkTileRank r (normalizeOptions o) * (calcDrawSize (normalizeOptions o)).gridSize) =
        some colorCheck) := by
  set o' := normalizeOptions o with ho'
  set ds := calcDrawSize o' with hds
  have hsplit : renderLayerOps r o =
      (drawBackgroundOps ds ++ highlightCellsOps r o' ds) ++
        (drawCheckTileOps r o' ds ++ drawRankFileOps o' ds) := by
    unfold renderLayerOps preBoardOps
    rw [List.append_assoc]
  have hA : ∀ x ∈ drawBackgroundOps ds ++ highlightCellsOps r o' ds, ¬ isRedFill x := by
    intro x hx
    rcases List.mem_append.1 hx with hx | hx
    · rcases mem_drawBackgroundOps_color ds x hx with hc | hc <;>
        (intro hr; unfold isRedFill at hr; rw [hc] at hr; exact absurd hr (by decide))
    · rcases mem_highlightCellsOps_color r o' ds x hx with hc | hc <;>
        (intro hr; unfold isRedFill at hr; rw [hc] at hr; exact absurd hr (by decide))
  have hB : ∀ x ∈ drawCheckTileOps r o' ds ++ drawRankFileOps o' ds, ¬ isHighlightFill x := by
    intro x hx
    rcases List.mem_append.1 hx with hx | hx
    · obtain ⟨rfl, -⟩ := mem_drawCheckTileOps_eq r o' ds x hx
      intro hr
      rcases hr with hr | hr <;>
        (rw [show fillColor (DrawOp.fillRect (checkTileFile r o' * ds.gridSize)
          (checkTileRank r o' * ds.gridSize) ds.gridSize ds.gridSize colorCheck) =
            some colorCheck from rfl] at hr;
         exact absurd hr (by decide))
    · have hcol := drawRankFileOps_fillColor o' ds x hx
      intro hr
      rcases hr with hr | hr <;> (rw [hcol] at hr; simp at hr)
  refine ⟨⟨?_, ?_⟩, ?_, ?_⟩
  · rintro ⟨op, hmem, hred⟩
    intro hNo
    rw [hsplit] at hmem
    rcases List.mem_append.1 hmem with hx | hx
    · exact hA op hx hred
    · rcases List.mem_append.1 hx with hx | hx
      · unfold drawCheckTileOps at hx
        rw [if_pos hNo] at hx
        simp at hx
      · have hcol := drawRankFileOps_fillColor o' ds op hx
        unfold isRedFill at hred
        rw [hcol] at hred
        simp at hred
  · intro hne
    refine ⟨DrawOp.fillRect (checkTileFile r o' * ds.gridSize)
      (checkTileRank r o' * ds.gridSize) ds.gridSize ds.gridSize colorCheck, ?_, rfl⟩
    rw [hsplit]
    refine List.mem_append.2 (Or.inr (List.mem_append.2 (Or.inl ?_)))
    unfold drawCheckTileOps
    rw [if_neg hne]
    simp
  · intro i j hi hj hH hR
    exact highlight_before_red hsplit hA hB i j hi hj hH hR
  · intro hne
    have hcover : fillCovers (DrawOp.fillRect (checkTileFile r o' * ds.gridSize)
        (checkTileRank r o' * ds.gridSize) ds.gridSize ds.gridSize colorCheck)
        (checkTileFile r o' * ds.gridSize) (checkTileRank r o' * ds.gridSize) = true := by
      unfold fillCovers
      simp only [Bool.and_eq_true, decide_eq_true_eq]
      refine ⟨⟨⟨le_refl _, ?_⟩, le_refl _⟩, ?_⟩ <;> omega
    unfold lastFillColorAt
    rw [hsplit, List.filter_append, List.filter_append, List.filter_append]
    have hlab : (drawRankFileOps o' ds).filter
        (fun op => fillCovers op (checkTileFile r o' * ds.gridSize)
          (checkTileRank r o' * ds.gridSize)) = [] := by
      rw [List.filter_eq_nil_iff]
      intro a ha
      rw [drawRankFileOps_not_covers o' ds a _ _ ha]
      simp
    have hchk : (drawCheckTileOps r o' ds).filter
        (fun op => fillCovers op (checkTileFile r o' * ds.gridSize)
          (checkTileRank r o' * ds.gridSize)) =
        [DrawOp.fillRect (checkTileFile r o' * ds.gridSize)
          (checkTileRank r o' * ds.gridSize) ds.gridSize ds.gridSize colorCheck] := by
      unfold drawCheckTileOps
      rw [if_neg hne]
      simp [List.filter, hcover]
    rw [hlab, hchk, List.append_nil, List.getLast?_concat]

/-- C4 witness: the demo setup (empty board, check tile e8, last move
d1-h5) under default options: grid size 64 is positive and the last fill
covering the e8 square is pure red. -/
theorem c4_check_fill_witness :
    0 < (calcDrawSize (normalizeOptions defaultOptions)).gridSize ∧
    lastFillColorAt (renderLayerOps demoRenderer defaultOptions)
      (checkTileFile demoRenderer (normalizeOptions defaultOptions) *
        (calcDrawSize (normalizeOptions defaultOptions)).gridSize)
      (checkTileRank demoRenderer (normalizeOptions defaultOptions) *
        (calcDrawSize (normalizeOptions defaultOptions)).gridSize) = some colorCheck :=
  ⟨by decide, (c4_check_fill demoRenderer defaultOptions (by decide)).2.2 (by decide)⟩

end Chessimage
